import Mathlib

/-!
# Verification of the rig-deepagents workflow vertices and Pregel scheduler

A shallow embedding of the `rig-deepagents` crate:

* `workflow/vertices/tool.rs` — `ToolVertex` (argument building, compute);
* `workflow/vertices/agent.rs` — `AgentVertex` (stop conditions, the agent
  loop, compute);
* the Pregel superstep scheduler, modelled from the specification (its
  implementation, `pregel/runtime.rs`, is not part of the sources here;
  only the module documentation of `pregel/mod.rs` is).

External library behaviour (serde_json parsing and rendering, the LLM
provider, the tool executor) is abstracted as function parameters; the
control flow of the vertex code is translated statement by statement.
-/

/-- JSON values, standing in for `serde_json::Value`.  Numbers are modelled
as integers; no claim computes with a numeric payload. -/
inductive Json where
  | null : Json
  | bool (b : Bool) : Json
  | num (n : Int) : Json
  | str (s : String) : Json
  | arr (elems : List Json) : Json
  | obj (entries : List (String × Json)) : Json

/-- Modelled from the spec: the message envelope `WorkflowMessage`
(`pregel/message.rs` is not among the sources).  `Data { key, value }` is
the variant observed in the vertex code; the spec reserves the variant
space for control signals, represented here by an opaque `Control` case. -/
inductive WorkflowMessage where
  | Data (key : String) (value : Json) : WorkflowMessage
  | Control (tag : String) : WorkflowMessage

/-- Modelled from the spec: chat roles of `crate::state::Role`
(`state.rs` is not among the sources; the four roles are those used by
the vertex code). -/
inductive Role where
  | System : Role
  | User : Role
  | Assistant : Role
  | Tool : Role
deriving DecidableEq

/-- Modelled from the spec: `crate::state::ToolCall` — a tool invocation
requested by the LLM, as used by the agent vertex (`id`, `name`,
`arguments`). -/
structure ToolCall where
  id : String
  name : String
  arguments : Json

/-- Modelled from the spec: `crate::state::Message` — a chat message with
role, content, optional tool calls and optional tool-call id, exactly the
four fields the agent vertex constructs. -/
structure Message where
  role : Role
  content : String
  tool_calls : Option (List ToolCall)
  tool_call_id : Option String

/-- `Message::tool(content, id)`: a tool-role message carrying a tool
result, as pushed by the agent loop. -/
def Message.tool (content : String) (id : String) : Message :=
  { role := Role.Tool, content := content, tool_calls := none,
    tool_call_id := some id }

/-- Modelled from the spec: the error taxonomy's `VertexError`
(`pregel/error.rs` is not among the sources).  The boxed `source` field is
dropped; the claims speak only of `vertex_id` and `message`. -/
inductive PregelError where
  | VertexError (vertex_id : String) (message : String) : PregelError
deriving DecidableEq

/-- Modelled from the spec: the per-vertex activation flag, one of
Active / Halted. -/
inductive VertexState where
  | Active : VertexState
  | Halted : VertexState
deriving DecidableEq

/-- Modelled from the spec: the `StateUpdate` capability — an update type
with a distinguished `empty` element. -/
class StateUpdate (U : Type) where
  empty : U

instance : StateUpdate Unit := ⟨()⟩

/-- Modelled from the spec: `ComputeResult` carries the update to merge
and the vertex's next state; outbound messages travel through the
compute context and are modelled as an explicit output list. -/
structure ComputeResult (U : Type) where
  update : U
  state : VertexState
deriving DecidableEq

/-- `ComputeResult::halt(update)`: halted, with the given update. -/
def ComputeResult.halt {U : Type} (u : U) : ComputeResult U :=
  { update := u, state := VertexState.Halted }

/-- Modelled from the spec: `ToolDefinition` of the middleware layer —
name, description and a JSON-schema parameter object. -/
structure ToolDefinition where
  name : String
  description : String
  parameters : Json

/-- Modelled from the spec: `LLMResponse` wraps the assistant message
returned by the provider (`response.message` is the only field the agent
vertex reads). -/
structure LLMResponse where
  message : Message

/-- Modelled from the spec: `StopCondition` of `workflow/node.rs` (not
among the sources); the five variants are those matched by
`AgentVertex::check_stop_conditions`.  The fields of `StateMatch` are not
observable in the sources (`StateMatch { .. }`); a path/value pair stands
in for them. -/
inductive StopCondition where
  | NoToolCalls : StopCondition
  | OnTool (tool_name : String) : StopCondition
  | ContainsText (pattern : String) : StopCondition
  | MaxIterations (count : Nat) : StopCondition
  | StateMatch (path : String) (value : Json) : StopCondition

/-- Contiguous-sublist check over character lists. -/
def containsSub (pat : List Char) : List Char → Bool
  | [] => pat.isEmpty
  | a :: rest => pat.isPrefixOf (a :: rest) || containsSub pat rest

/-- Rust `str::contains` (substring containment). -/
def strContains (s pat : String) : Bool :=
  containsSub pat.data s.data

/-- One arm of the `match condition` inside
`AgentVertex::check_stop_conditions`: whether a single stop condition is
met by `message` at `iteration`.  The `StateMatch` arm is a TODO in the
source (`continue`), hence `false`. -/
def stop_condition_met (condition : StopCondition) (message : Message)
    (iteration : Nat) : Bool :=
  match condition with
  | StopCondition.NoToolCalls =>
    match message.tool_calls with
    | none => true
    | some tcs => tcs.isEmpty
  | StopCondition.OnTool tool_name =>
    match message.tool_calls with
    | some tcs => tcs.any (fun tc => tc.name == tool_name)
    | none => false
  | StopCondition.ContainsText pattern => strContains message.content pattern
  | StopCondition.MaxIterations count => count ≤ iteration
  | StopCondition.StateMatch _ _ => false

/-- `AgentVertex::check_stop_conditions`: the source iterates over
`config.stop_conditions`, returning `true` at the first condition met and
`false` after the loop. -/
def check_stop_conditions (conds : List StopCondition) (message : Message)
    (iteration : Nat) : Bool :=
  match conds with
  | [] => false
  | c :: rest =>
    if stop_condition_met c message iteration then true
    else check_stop_conditions rest message iteration

/-- Recognizer for the `StateMatch` variant. -/
def StopCondition.isStateMatchCond : StopCondition → Bool
  | StopCondition.StateMatch _ _ => true
  | _ => false

/-- Modelled from the spec: `AgentNodeConfig` of `workflow/node.rs` (not
among the sources); the fields are those the agent vertex reads.  The
`temperature` field only feeds `build_llm_config`, whose result is passed
opaquely to the provider, so it is absorbed into the abstract provider
function. -/
structure AgentNodeConfig where
  system_prompt : String
  stop_conditions : List StopCondition
  max_iterations : Nat
  allowed_tools : Option (List String)

/-- `AgentVertex::filter_tools`: restrict to the allowed list when one is
configured. -/
def filter_tools (config : AgentNodeConfig) (tools : List ToolDefinition) :
    List ToolDefinition :=
  match config.allowed_tools with
  | some allowed => tools.filter (fun t => allowed.contains t.name)
  | none => tools

/-- Modelled from the spec: `ToolNodeConfig` of `workflow/node.rs` (not
among the sources); fields as read by `ToolVertex`.  The Rust `HashMap`s
are modelled as association lists. -/
structure ToolNodeConfig where
  tool_name : String
  static_args : List (String × Json)
  state_arg_paths : List (String × String)
  result_path : Option String

/-- `ToolVertex::build_arguments`: clones `static_args`; the loop over
`state_arg_paths` only emits a debug log (resolution is a TODO in the
source), and the map is collected into a JSON object. -/
def build_arguments {S : Type} (config : ToolNodeConfig) (_state : S) : Json :=
  let args := config.static_args
  Json.obj args

/-- The incoming and outgoing half of a vertex's `compute`, recorded
explicitly: the messages sent through `ctx.send_message` as
(target label, message) pairs, the number of LLM calls made, the chat
transcript at return, and the returned value. -/
structure AgentRun (U : Type) where
  sent : List (String × WorkflowMessage)
  calls : Nat
  transcript : List Message
  result : Except PregelError (ComputeResult U)

/-- The message-history prologue of `AgentVertex::compute`: start from
the system prompt, push one user message per `Data` mailbox entry (the
value rendered to a string, `render` standing for
`serde_json::Value::to_string`), and if nothing was pushed
(`messages.len() == 1`) add the default activation message. -/
def initialMessages (system_prompt : String) (render : Json → String)
    (mailbox : List WorkflowMessage) : List Message :=
  let base : List Message :=
    [{ role := Role.System, content := system_prompt, tool_calls := none,
       tool_call_id := none }]
  let msgs := mailbox.foldl (fun acc m =>
    match m with
    | WorkflowMessage.Data _ value =>
      acc ++ [{ role := Role.User, content := render value,
                 tool_calls := none, tool_call_id := none }]
    | _ => acc) base
  if msgs.length == 1 then
    msgs ++ [{ role := Role.User, content := "Begin processing.",
               tool_calls := none, tool_call_id := none }]
  else msgs

/-- The `for iteration in 0..max_iterations` loop of
`AgentVertex::compute`.  The LLM provider is a function of the call
index, the message history and the (already filtered) tools; an `error`
models `complete` returning `Err`, whose rendering `e.to_string()` is the
carried string.  `remaining` counts the iterations left
(`max_iterations - iteration`); falling to `0` is the loop running off
its end, after which the source returns the "Max iterations reached"
vertex error. -/
def agentLoop {U : Type} [StateUpdate U] (id : String)
    (conds : List StopCondition)
    (llm : Nat → List Message → List ToolDefinition → Except String LLMResponse)
    (tools : List ToolDefinition) :
    List Message → Nat → Nat → AgentRun U
  | messages, iteration, 0 =>
    { sent := [], calls := iteration, transcript := messages,
      result := Except.error (PregelError.VertexError id "Max iterations reached") }
  | messages, iteration, remaining + 1 =>
    match llm iteration messages tools with
    | Except.error e =>
      { sent := [], calls := iteration + 1, transcript := messages,
        result := Except.error (PregelError.VertexError id e) }
    | Except.ok response =>
      let assistant := response.message
      let messages' := messages ++ [assistant]
      if check_stop_conditions conds assistant iteration then
        { sent := [("output", WorkflowMessage.Data "response" (Json.str assistant.content))],
          calls := iteration + 1, transcript := messages',
          result := Except.ok (ComputeResult.halt StateUpdate.empty) }
      else
        match assistant.tool_calls with
        | some tool_calls =>
          agentLoop id conds llm tools
            (messages' ++ tool_calls.map
              (fun tc => Message.tool "Tool executed successfully" tc.id))
            (iteration + 1) remaining
        | none =>
          { sent := [("output", WorkflowMessage.Data "response" (Json.str assistant.content))],
            calls := iteration + 1, transcript := messages',
            result := Except.ok (ComputeResult.halt StateUpdate.empty) }

/-- `AgentVertex::compute`: build the prologue history, filter the tools,
then run the agent loop from iteration 0. -/
def AgentVertex.compute {U : Type} [StateUpdate U] (id : String)
    (config : AgentNodeConfig) (tools : List ToolDefinition)
    (render : Json → String)
    (llm : Nat → List Message → List ToolDefinition → Except String LLMResponse)
    (mailbox : List WorkflowMessage) : AgentRun U :=
  let messages := initialMessages config.system_prompt render mailbox
  let filtered_tools := filter_tools config tools
  agentLoop id config.stop_conditions llm filtered_tools messages 0
    config.max_iterations

/-- Outcome of `ToolVertex::compute`: sent messages and returned value. -/
structure ToolRun (U : Type) where
  sent : List (String × WorkflowMessage)
  result : Except PregelError (ComputeResult U)

/-- `ToolVertex::compute`: build the arguments, run the tool (`tool`
stands for `self.tool.execute(args, &self.runtime)`; an `error` models
`Err`, rendered by `e.to_string()` into the carried string), parse the
result string as JSON (`parse` standing for `serde_json::from_str`, with
the string itself as fallback), pick the output key from `result_path`
or `"{tool_name}_result"`, send the one output message, and halt with
the empty update. -/
def ToolVertex.compute {S U : Type} [StateUpdate U] (id : String)
    (config : ToolNodeConfig) (tool : Json → Except String String)
    (parse : String → Option Json) (state : S) : ToolRun U :=
  let args := build_arguments config state
  match tool args with
  | Except.error e =>
    { sent := [],
      result := Except.error
        (PregelError.VertexError id ("Tool execution failed: " ++ e)) }
  | Except.ok result_str =>
    let result_value :=
      match parse result_str with
      | some v => v
      | none => Json.str result_str
    let output_key :=
      match config.result_path with
      | some p => p
      | none => config.tool_name ++ "_result"
    { sent := [("output", WorkflowMessage.Data output_key result_value)],
      result := Except.ok (ComputeResult.halt StateUpdate.empty) }

/-- Modelled from the spec: a vertex as the scheduler sees it
(`pregel/vertex.rs` and `pregel/runtime.rs` are not among the sources).
`compute` receives the mailbox, the superstep index and a read-only state
view, and yields the update to merge, the outbox as (target label,
message) pairs, and the next activation state. -/
structure PregelVertex (S U : Type) where
  vid : String
  compute : List WorkflowMessage → Nat → S →
    U × List (String × WorkflowMessage) × VertexState

/-- Modelled from the spec: an edge — direct (fixed target) or
conditional (predicate over message and post-merge state; a false
predicate drops the message). -/
inductive Edge (S : Type) where
  | direct (source label target : String) : Edge S
  | conditional (source label target : String)
      (pred : WorkflowMessage → S → Bool) : Edge S

/-- Modelled from the spec: the workflow graph — vertices plus a static
edge table. -/
structure PregelGraph (S U : Type) where
  vertices : List (PregelVertex S U)
  edges : List (Edge S)

/-- Modelled from the spec: the scheduler's per-step state — superstep
index, pending mailboxes, the active set, and the shared workflow
state. -/
structure SchedState (S : Type) where
  superstep : Nat
  mailboxes : List (String × List WorkflowMessage)
  active : List String
  state : S

/-- Look up a vertex's mailbox; a vertex without an entry has the empty
mailbox. -/
def mailboxOf (mbs : List (String × List WorkflowMessage)) (v : String) :
    List WorkflowMessage :=
  match mbs with
  | [] => []
  | (k, ms) :: rest => if k = v then ms else mailboxOf rest v

/-- Append one delivered message to the target's mailbox, creating the
entry if absent. -/
def addDelivery (mbs : List (String × List WorkflowMessage)) (t : String)
    (m : WorkflowMessage) : List (String × List WorkflowMessage) :=
  match mbs with
  | [] => [(t, [m])]
  | (k, ms) :: rest =>
    if k = t then (k, ms ++ [m]) :: rest else (k, ms) :: addDelivery rest t m

/-- The output of one vertex's compute in a step. -/
structure VertexOutput (U : Type) where
  vid : String
  update : U
  outbox : List (String × WorkflowMessage)
  next : VertexState

/-- Compute phase of a superstep: run every active vertex (in the
deterministic vertex-table order) on its mailbox and the start-of-step
state. -/
def stepOutputs {S U : Type} (g : PregelGraph S U) (st : SchedState S) :
    List (VertexOutput U) :=
  (g.vertices.filter (fun v => st.active.contains v.vid)).map (fun v =>
    let r := v.compute (mailboxOf st.mailboxes v.vid) st.superstep st.state
    { vid := v.vid, update := r.1, outbox := r.2.1, next := r.2.2 })

/-- Resolve one outbound (sender, label, message) against the edge table,
evaluating conditional predicates on the post-merge state. -/
def edgeTargets {S : Type} (edges : List (Edge S)) (state : S)
    (sender label : String) (msg : WorkflowMessage) : List String :=
  edges.filterMap (fun e =>
    match e with
    | Edge.direct s l t =>
      if s = sender ∧ l = label then some t else none
    | Edge.conditional s l t p =>
      if s = sender ∧ l = label then
        (if p msg state then some t else none)
      else none)

/-- Route phase: resolve every collected (sender, label, message) into
(target, message) deliveries, in collection order. -/
def routeAll {S : Type} (edges : List (Edge S)) (state : S)
    (outs : List (String × String × WorkflowMessage)) :
    List (String × WorkflowMessage) :=
  (outs.map (fun o =>
    (edgeTargets edges state o.1 o.2.1 o.2.2).map (fun t => (t, o.2.2)))).flatten

/-- Result of one superstep: the next scheduler state, the delivered
(target, message) pairs, and the raw outbound log entries
(sender, label, message). -/
structure StepResult (S : Type) where
  next : SchedState S
  deliveries : List (String × WorkflowMessage)
  outs : List (String × String × WorkflowMessage)

/-- One superstep of the scheduler, following the spec's loop: compute
all active vertices, merge all updates into the shared state (`merge` is
the state's update operation; `σ` is the unspecified order in which the
scheduler folds the collected updates), route the outboxes against the
edges using the post-merge state, deliver into fresh next-step
mailboxes, and recompute the active set (message recipients, plus
vertices that returned Active). -/
def schedStep {S U : Type} (merge : S → U → S) (σ : List U → List U)
    (g : PregelGraph S U) (st : SchedState S) : StepResult S :=
  let outputs := stepOutputs g st
  let updates := outputs.map (fun o => o.update)
  let state' := (σ updates).foldl merge st.state
  let outs := (outputs.map (fun o =>
    o.outbox.map (fun lm => (o.vid, lm.1, lm.2)))).flatten
  let deliveries := routeAll g.edges state' outs
  let mailboxes' := deliveries.foldl (fun acc d => addDelivery acc d.1 d.2) []
  let active' :=
    ((deliveries.map (fun d => d.1)) ++
      (outputs.filter (fun o => o.next == VertexState.Active)).map
        (fun o => o.vid)).dedup
  { next := { superstep := st.superstep + 1, mailboxes := mailboxes',
              active := active', state := state' },
    deliveries := deliveries, outs := outs }

/-- The initial scheduler state: seed the step-0 mailboxes from the
external input deliveries and mark every recipient Active. -/
def initState {S : Type} (initial : List (String × WorkflowMessage))
    (s0 : S) : SchedState S :=
  { superstep := 0,
    mailboxes := initial.foldl (fun acc d => addDelivery acc d.1 d.2) [],
    active := (initial.map (fun d => d.1)).dedup,
    state := s0 }

/-- The scheduler's trace: the state before superstep `n`. -/
def schedTrace {S U : Type} (merge : S → U → S) (σ : List U → List U)
    (g : PregelGraph S U) (st0 : SchedState S) : Nat → SchedState S
  | 0 => st0
  | n + 1 => (schedStep merge σ g (schedTrace merge σ g st0 n)).next

/-- The messages delivered (routed from the compute outboxes) during
superstep `n`. -/
def deliveriesAt {S U : Type} (merge : S → U → S) (σ : List U → List U)
    (g : PregelGraph S U) (st0 : SchedState S) (n : Nat) :
    List (String × WorkflowMessage) :=
  (schedStep merge σ g (schedTrace merge σ g st0 n)).deliveries

/-- Result of a whole run: superstep count, final state, the outbound
message log, and whether the run converged (active set empty) rather
than hit the superstep cap. -/
structure RunResult (S : Type) where
  supersteps : Nat
  state : S
  log : List (String × String × WorkflowMessage)
  converged : Bool

/-- The superstep loop: stop with success when the active set is empty,
with a convergence failure when the superstep cap is exhausted. -/
def runLoop {S U : Type} (merge : S → U → S) (σ : List U → List U)
    (g : PregelGraph S U) :
    Nat → SchedState S → List (String × String × WorkflowMessage) →
    RunResult S
  | 0, st, log =>
    if st.active.isEmpty then
      { supersteps := st.superstep, state := st.state, log := log,
        converged := true }
    else
      { supersteps := st.superstep, state := st.state, log := log,
        converged := false }
  | fuel + 1, st, log =>
    if st.active.isEmpty then
      { supersteps := st.superstep, state := st.state, log := log,
        converged := true }
    else
      let r := schedStep merge σ g st
      runLoop merge σ g fuel r.next (log ++ r.outs)

/-- Modelled from the spec: the runtime façade `execute` — seed the
mailboxes from the initial external inputs, then run the superstep loop
under the `max_supersteps` cap. -/
def runPregel {S U : Type} (merge : S → U → S) (σ : List U → List U)
    (g : PregelGraph S U) (initial : List (String × WorkflowMessage))
    (s0 : S) (maxSupersteps : Nat) : RunResult S :=
  runLoop merge σ g maxSupersteps (initState initial s0) []

/-- C1: `ToolVertex::build_arguments` returns exactly the JSON object
built from `config.static_args`; the `state_arg_paths` entries contribute
nothing, and the result does not depend on the workflow state. -/
theorem build_arguments_static_only {S : Type} (config : ToolNodeConfig)
    (s s' : S) (paths : List (String × String)) :
    build_arguments config s = Json.obj config.static_args ∧
    build_arguments config s = build_arguments config s' ∧
    build_arguments { config with state_arg_paths := paths } s =
      build_arguments config s :=
  ⟨rfl, rfl, rfl⟩

/-- C2: with a stop-condition list containing only `StateMatch`
conditions, `check_stop_conditions` returns `false` for every message and
iteration: a `StateMatch` condition never stops the agent. -/
theorem state_match_never_stops (conds : List StopCondition)
    (message : Message) (iteration : Nat)
    (h : ∀ c ∈ conds, c.isStateMatchCond = true) :
    check_stop_conditions conds message iteration = false := by
  induction conds with
  | nil => rfl
  | cons c rest ih =>
    have hc := h c (by simp)
    have hrest := ih (fun x hx => h x (by simp [hx]))
    cases c with
    | StateMatch p v =>
      simpa [check_stop_conditions, stop_condition_met] using hrest
    | NoToolCalls => simp [StopCondition.isStateMatchCond] at hc
    | OnTool n => simp [StopCondition.isStateMatchCond] at hc
    | ContainsText p => simp [StopCondition.isStateMatchCond] at hc
    | MaxIterations k => simp [StopCondition.isStateMatchCond] at hc

/-- Witness for C2 at a concrete condition list and message. -/
theorem state_match_never_stops_witness :
    check_stop_conditions [StopCondition.StateMatch "phase" (Json.str "done")]
      { role := Role.Assistant, content := "hello", tool_calls := none,
        tool_call_id := none } 0 = false :=
  state_match_never_stops _ _ _ (by
    intro c hc
    rcases List.mem_singleton.mp hc with rfl
    rfl)

/-- C10: when the tool's execute succeeds, `ToolVertex::compute` sends
exactly one `Data` message to the label `"output"`, keyed by
`result_path` or `"{tool_name}_result"`, carrying the result string
parsed as JSON (the raw string as fallback), and returns halted with the
empty update. -/
theorem tool_compute_ok_sends_result {S U : Type} [StateUpdate U]
    (id : String) (config : ToolNodeConfig)
    (tool : Json → Except String String) (parse : String → Option Json)
    (state : S) (out : String)
    (h : tool (build_arguments config state) = Except.ok out) :
    (ToolVertex.compute id config tool parse state : ToolRun U) =
      { sent := [("output", WorkflowMessage.Data
          (config.result_path.getD (config.tool_name ++ "_result"))
          ((parse out).getD (Json.str out)))],
        result := Except.ok (ComputeResult.halt StateUpdate.empty) } := by
  rcases hp : parse out with _ | v <;>
    rcases hr : config.result_path with _ | p <;>
      simp [ToolVertex.compute, h, hp, hr, Option.getD]

/-- Witness for C10 at a concrete tool vertex whose tool succeeds. -/
theorem tool_compute_ok_sends_result_witness :
    (ToolVertex.compute "search_node"
        { tool_name := "search", static_args := [("q", Json.str "x")],
          state_arg_paths := [], result_path := some "search_results" }
        (fun _ => Except.ok "done") (fun _ => none) () : ToolRun Unit) =
      { sent := [("output", WorkflowMessage.Data "search_results"
          (Json.str "done"))],
        result := Except.ok (ComputeResult.halt StateUpdate.empty) } :=
  tool_compute_ok_sends_result "search_node" _ _ _ () "done" rfl

/-- Helper: whenever the agent loop returns an error, nothing was sent
through the compute context. -/
theorem agentLoop_error_sent_nil {U : Type} [StateUpdate U] (id : String)
    (conds : List StopCondition)
    (llm : Nat → List Message → List ToolDefinition → Except String LLMResponse)
    (tools : List ToolDefinition) :
    ∀ (r : Nat) (messages : List Message) (iteration : Nat) (pe : PregelError),
      (agentLoop id conds llm tools messages iteration r : AgentRun U).result =
          Except.error pe →
      (agentLoop id conds llm tools messages iteration r : AgentRun U).sent = [] := by
  intro r
  induction r with
  | zero => intro messages iteration pe _; rfl
  | succ r ih =>
    intro messages iteration pe h
    rcases hl : llm iteration messages tools with e | resp
    · simp [agentLoop, hl]
    · cases hstop : check_stop_conditions conds resp.message iteration with
      | true => simp [agentLoop, hl, hstop] at h
      | false =>
        cases htc : resp.message.tool_calls with
        | none => simp [agentLoop, hl, hstop, htc] at h
        | some tcs =>
          simp only [agentLoop, hl, hstop, htc] at h ⊢
          exact ih _ _ _ h

/-- C4: the agent propagates LLM failures.  First part: if the provider
fails at the current call, the loop returns immediately with a
`VertexError` carrying the vertex's own id and the rendered provider
error, having made no further LLM call and sent nothing at this point.
Second part: an erroring `AgentVertex::compute` invocation sends no
message at all. -/
theorem agent_llm_error_propagates {U : Type} [StateUpdate U] :
    (∀ (id : String) (conds : List StopCondition)
       (llm : Nat → List Message → List ToolDefinition → Except String LLMResponse)
       (tools : List ToolDefinition) (messages : List Message)
       (iteration r : Nat) (e : String),
       llm iteration messages tools = Except.error e →
       (agentLoop id conds llm tools messages iteration (r + 1) : AgentRun U) =
         { sent := [], calls := iteration + 1, transcript := messages,
           result := Except.error (PregelError.VertexError id e) }) ∧
    (∀ (id : String) (config : AgentNodeConfig) (tools : List ToolDefinition)
       (render : Json → String)
       (llm : Nat → List Message → List ToolDefinition → Except String LLMResponse)
       (mailbox : List WorkflowMessage) (pe : PregelError),
       (AgentVertex.compute id config tools render llm mailbox : AgentRun U).result =
           Except.error pe →
       (AgentVertex.compute id config tools render llm mailbox : AgentRun U).sent = []) := by
  constructor
  · intro id conds llm tools messages iteration r e hl
    simp [agentLoop, hl]
  · intro id config tools render llm mailbox pe h
    simp only [AgentVertex.compute] at h ⊢
    exact agentLoop_error_sent_nil id config.stop_conditions llm
      (filter_tools config tools) config.max_iterations _ 0 pe h

/-- Witness for C4: a provider failing at its first call makes the loop
return the rendered error under the vertex's id, and a failing compute
sends nothing. -/
theorem agent_llm_error_propagates_witness :
    (agentLoop "agent" [] (fun _ _ _ => Except.error "connection refused") []
        [] 0 3 : AgentRun Unit) =
      { sent := [], calls := 1, transcript := [],
        result := Except.error
          (PregelError.VertexError "agent" "connection refused") } ∧
    (AgentVertex.compute "agent"
        { system_prompt := "sys", stop_conditions := [], max_iterations := 4,
          allowed_tools := none } [] (fun _ => "")
        (fun _ _ _ => Except.error "connection refused") [] : AgentRun Unit).sent =
      [] :=
  ⟨(agent_llm_error_propagates (U := Unit)).1 "agent" [] _ [] [] 0 2
      "connection refused" rfl,
   (agent_llm_error_propagates (U := Unit)).2 "agent" _ [] _ _ []
      (PregelError.VertexError "agent" "connection refused") rfl⟩

/-- C8: a response without tool calls halts the agent in the same
iteration, whatever the stop conditions (the stop branch and the
no-tool-calls branch return the same record); a response with tool calls
and no matching stop condition continues the loop to another LLM call. -/
theorem agent_no_tool_calls_halts {U : Type} [StateUpdate U] (id : String)
    (conds : List StopCondition)
    (llm : Nat → List Message → List ToolDefinition → Except String LLMResponse)
    (tools : List ToolDefinition) (messages : List Message)
    (iteration r : Nat) :
    (∀ resp : LLMResponse,
       llm iteration messages tools = Except.ok resp →
       resp.message.tool_calls = none →
       (agentLoop id conds llm tools messages iteration (r + 1) : AgentRun U) =
         { sent := [("output", WorkflowMessage.Data "response"
             (Json.str resp.message.content))],
           calls := iteration + 1, transcript := messages ++ [resp.message],
           result := Except.ok (ComputeResult.halt StateUpdate.empty) }) ∧
    (∀ (resp : LLMResponse) (tcs : List ToolCall),
       llm iteration messages tools = Except.ok resp →
       resp.message.tool_calls = some tcs →
       check_stop_conditions conds resp.message iteration = false →
       (agentLoop id conds llm tools messages iteration (r + 1) : AgentRun U) =
         agentLoop id conds llm tools
           (messages ++ [resp.message] ++ tcs.map
             (fun tc => Message.tool "Tool executed successfully" tc.id))
           (iteration + 1) r) := by
  constructor
  · intro resp hok hnone
    simp only [agentLoop, hok]
    split
    · rfl
    · rw [hnone]
  · intro resp tcs hok hsome hstop
    simp [agentLoop, hok, hstop, hsome]

/-- Witness for C8: a concrete tool-call-free response halts at once,
and a concrete tool-call response with no stop condition recurses. -/
theorem agent_no_tool_calls_halts_witness :
    (agentLoop "agent" [] (fun _ _ _ => Except.ok
        { message := { role := Role.Assistant, content := "done",
                       tool_calls := none, tool_call_id := none } }) []
        [] 0 5 : AgentRun Unit) =
      { sent := [("output", WorkflowMessage.Data "response" (Json.str "done"))],
        calls := 1,
        transcript := [{ role := Role.Assistant, content := "done",
                         tool_calls := none, tool_call_id := none }],
        result := Except.ok (ComputeResult.halt StateUpdate.empty) } :=
  (agent_no_tool_calls_halts (U := Unit) "agent" [] _ [] [] 0 4).1
    { message := { role := Role.Assistant, content := "done",
                   tool_calls := none, tool_call_id := none } } rfl rfl

/-- Helper: whenever the agent loop returns `Ok`, the returned value is
`halt` with the empty update, and exactly one `Data` message keyed
`"response"` carrying the final assistant message's content was sent to
the label `"output"`. -/
theorem agentLoop_ok_shape {U : Type} [StateUpdate U] (id : String)
    (conds : List StopCondition)
    (llm : Nat → List Message → List ToolDefinition → Except String LLMResponse)
    (tools : List ToolDefinition) :
    ∀ (r : Nat) (messages : List Message) (iteration : Nat)
      (res : ComputeResult U),
      (agentLoop id conds llm tools messages iteration r : AgentRun U).result =
          Except.ok res →
      res = ComputeResult.halt StateUpdate.empty ∧
      ∃ m : Message,
        (agentLoop id conds llm tools messages iteration r : AgentRun U).transcript.getLast? =
            some m ∧
        (agentLoop id conds llm tools messages iteration r : AgentRun U).sent =
          [("output", WorkflowMessage.Data "response" (Json.str m.content))] := by
  intro r
  induction r with
  | zero => intro messages iteration res h; simp [agentLoop] at h
  | succ r ih =>
    intro messages iteration res h
    rcases hl : llm iteration messages tools with e | resp
    · simp [agentLoop, hl] at h
    · cases hstop : check_stop_conditions conds resp.message iteration with
      | true =>
        simp only [agentLoop, hl, hstop, if_true] at h ⊢
        simp only [Except.ok.injEq] at h
        refine ⟨h.symm, resp.message, ?_, ?_⟩
        · simp [List.getLast?_concat]
        · simp
      | false =>
        cases htc : resp.message.tool_calls with
        | none =>
          simp only [agentLoop, hl, hstop, htc] at h ⊢
          simp only [Bool.false_eq_true, if_false, Except.ok.injEq] at h ⊢
          refine ⟨h.symm, resp.message, ?_, ?_⟩
          · simp [List.getLast?_concat]
          · simp
        | some tcs =>
          simp only [agentLoop, hl, hstop, htc] at h ⊢
          simp only [Bool.false_eq_true, if_false] at h ⊢
          exact ih _ _ _ h

/-- C3: whenever `AgentVertex::compute` returns `Ok`, the result is
halted (never active) with the empty update, and exactly one
`WorkflowMessage::Data` keyed `"response"`, carrying the final assistant
message's content, was sent to the target label `"output"`. -/
theorem agent_compute_ok_halts_with_response {U : Type} [StateUpdate U]
    (id : String) (config : AgentNodeConfig) (tools : List ToolDefinition)
    (render : Json → String)
    (llm : Nat → List Message → List ToolDefinition → Except String LLMResponse)
    (mailbox : List WorkflowMessage) (res : ComputeResult U)
    (h : (AgentVertex.compute id config tools render llm mailbox : AgentRun U).result =
        Except.ok res) :
    res.state = VertexState.Halted ∧ res.update = StateUpdate.empty ∧
    ∃ m : Message,
      (AgentVertex.compute id config tools render llm mailbox : AgentRun U).transcript.getLast? =
          some m ∧
      (AgentVertex.compute id config tools render llm mailbox : AgentRun U).sent =
        [("output", WorkflowMessage.Data "response" (Json.str m.content))] := by
  simp only [AgentVertex.compute] at h ⊢
  obtain ⟨hres, m, ht, hs⟩ :=
    agentLoop_ok_shape id config.stop_conditions llm (filter_tools config tools)
      config.max_iterations (initialMessages config.system_prompt render mailbox)
      0 res h
  subst hres
  exact ⟨rfl, rfl, m, ht, hs⟩

/-- Witness for C3: a concrete successful compute (one assistant reply,
`NoToolCalls` stop condition) halts with the empty update and sends the
reply under key `"response"`. -/
theorem agent_compute_ok_halts_with_response_witness :
    (ComputeResult.halt (StateUpdate.empty) : ComputeResult Unit).state =
        VertexState.Halted ∧
    (ComputeResult.halt (StateUpdate.empty) : ComputeResult Unit).update =
        StateUpdate.empty ∧
    ∃ m : Message,
      (AgentVertex.compute "agent"
          { system_prompt := "You are helpful.",
            stop_conditions := [StopCondition.NoToolCalls],
            max_iterations := 10, allowed_tools := none } [] (fun _ => "")
          (fun _ _ _ => Except.ok
            { message := { role := Role.Assistant, content := "Hello!",
                           tool_calls := none, tool_call_id := none } })
          [] : AgentRun Unit).transcript.getLast? = some m ∧
      (AgentVertex.compute "agent"
          { system_prompt := "You are helpful.",
            stop_conditions := [StopCondition.NoToolCalls],
            max_iterations := 10, allowed_tools := none } [] (fun _ => "")
          (fun _ _ _ => Except.ok
            { message := { role := Role.Assistant, content := "Hello!",
                           tool_calls := none, tool_call_id := none } })
          [] : AgentRun Unit).sent =
        [("output", WorkflowMessage.Data "response" (Json.str m.content))] :=
  agent_compute_ok_halts_with_response "agent" _ [] _ _ []
    (ComputeResult.halt StateUpdate.empty) rfl

/-- Helper: the agent loop makes at most `iteration + remaining` LLM
calls in total (counting its call index from `iteration` with
`remaining` iterations left). -/
theorem agentLoop_calls_le {U : Type} [StateUpdate U] (id : String)
    (conds : List StopCondition)
    (llm : Nat → List Message → List ToolDefinition → Except String LLMResponse)
    (tools : List ToolDefinition) :
    ∀ (r : Nat) (messages : List Message) (iteration : Nat),
      (agentLoop id conds llm tools messages iteration r : AgentRun U).calls ≤
        iteration + r := by
  intro r
  induction r with
  | zero => intro messages iteration; simp [agentLoop]
  | succ r ih =>
    intro messages iteration
    rcases hl : llm iteration messages tools with e | resp
    · simp only [agentLoop, hl]
      omega
    · cases hstop : check_stop_conditions conds resp.message iteration with
      | true =>
        simp only [agentLoop, hl, hstop, if_true]
        omega
      | false =>
        cases htc : resp.message.tool_calls with
        | none =>
          simp only [agentLoop, hl, hstop, htc, Bool.false_eq_true, if_false]
          omega
        | some tcs =>
          simp only [agentLoop, hl, hstop, htc, Bool.false_eq_true, if_false]
          exact le_trans (ih _ _) (by omega)

/-- Helper: when every LLM call succeeds with tool calls and no stop
condition ever fires, the agent loop exhausts all its iterations, making
one call per iteration, and ends in the "Max iterations reached" vertex
error. -/
theorem agentLoop_exhausts {U : Type} [StateUpdate U] (id : String)
    (conds : List StopCondition)
    (llm : Nat → List Message → List ToolDefinition → Except String LLMResponse)
    (tools : List ToolDefinition)
    (h : ∀ (i : Nat) (msgs : List Message),
      match llm i msgs tools with
      | Except.ok resp => resp.message.tool_calls ≠ none ∧
          check_stop_conditions conds resp.message i = false
      | Except.error _ => False) :
    ∀ (r : Nat) (messages : List Message) (iteration : Nat),
      (agentLoop id conds llm tools messages iteration r : AgentRun U).calls =
          iteration + r ∧
      (agentLoop id conds llm tools messages iteration r : AgentRun U).result =
        Except.error (PregelError.VertexError id "Max iterations reached") := by
  intro r
  induction r with
  | zero => intro messages iteration; exact ⟨by simp [agentLoop], rfl⟩
  | succ r ih =>
    intro messages iteration
    have hh := h iteration messages
    rcases hl : llm iteration messages tools with e | resp
    · rw [hl] at hh
      exact absurd hh (by simp)
    · rw [hl] at hh
      obtain ⟨htc, hstop⟩ := hh
      cases htcc : resp.message.tool_calls with
      | none => exact absurd htcc htc
      | some tcs =>
        simp only [agentLoop, hl, hstop, htcc, Bool.false_eq_true, if_false]
        have hrec := ih (messages ++ [resp.message] ++ tcs.map
          (fun tc => Message.tool "Tool executed successfully" tc.id))
          (iteration + 1)
        exact ⟨by rw [hrec.1]; omega, hrec.2⟩

/-- C9: `AgentVertex::compute` performs at most
`config.max_iterations` LLM calls (it always terminates — the loop is a
total function of its remaining-iteration count); when every call
succeeds with tool calls and no stop condition fires, it makes exactly
`config.max_iterations` calls and returns the "Max iterations reached"
vertex error; with `max_iterations = 0` it returns that error without
calling the LLM at all. -/
theorem agent_compute_call_bound {U : Type} [StateUpdate U] :
    (∀ (id : String) (config : AgentNodeConfig) (tools : List ToolDefinition)
       (render : Json → String)
       (llm : Nat → List Message → List ToolDefinition → Except String LLMResponse)
       (mailbox : List WorkflowMessage),
       (AgentVertex.compute id config tools render llm mailbox : AgentRun U).calls ≤
         config.max_iterations) ∧
    (∀ (id : String) (config : AgentNodeConfig) (tools : List ToolDefinition)
       (render : Json → String)
       (llm : Nat → List Message → List ToolDefinition → Except String LLMResponse)
       (mailbox : List WorkflowMessage),
       (∀ (i : Nat) (msgs : List Message),
         match llm i msgs (filter_tools config tools) with
         | Except.ok resp => resp.message.tool_calls ≠ none ∧
             check_stop_conditions config.stop_conditions resp.message i = false
         | Except.error _ => False) →
       (AgentVertex.compute id config tools render llm mailbox : AgentRun U).calls =
           config.max_iterations ∧
       (AgentVertex.compute id config tools render llm mailbox : AgentRun U).result =
         Except.error (PregelError.VertexError id "Max iterations reached")) ∧
    (∀ (id : String) (config : AgentNodeConfig) (tools : List ToolDefinition)
       (render : Json → String)
       (llm : Nat → List Message → List ToolDefinition → Except String LLMResponse)
       (mailbox : List WorkflowMessage),
       config.max_iterations = 0 →
       (AgentVertex.compute id config tools render llm mailbox : AgentRun U).calls =
           0 ∧
       (AgentVertex.compute id config tools render llm mailbox : AgentRun U).result =
         Except.error (PregelError.VertexError id "Max iterations reached")) := by
  refine ⟨?_, ?_, ?_⟩
  · intro id config tools render llm mailbox
    have := agentLoop_calls_le (U := U) id config.stop_conditions llm
      (filter_tools config tools) config.max_iterations
      (initialMessages config.system_prompt render mailbox) 0
    simpa [AgentVertex.compute] using this
  · intro id config tools render llm mailbox hllm
    have := agentLoop_exhausts (U := U) id config.stop_conditions llm
      (filter_tools config tools) hllm config.max_iterations
      (initialMessages config.system_prompt render mailbox) 0
    simpa [AgentVertex.compute] using this
  · intro id config tools render llm mailbox h0
    constructor
    · simp [AgentVertex.compute, h0, agentLoop]
    · simp [AgentVertex.compute, h0, agentLoop]

/-- Witness for C9: a provider that always requests a tool call, with no
stop conditions, exhausts `max_iterations = 2` in exactly two calls; a
configuration with `max_iterations = 0` errors with zero calls. -/
theorem agent_compute_call_bound_witness :
    ((AgentVertex.compute "agent"
        { system_prompt := "sys", stop_conditions := [], max_iterations := 2,
          allowed_tools := none } [] (fun _ => "")
        (fun _ _ _ => Except.ok
          { message := { role := Role.Assistant, content := "thinking",
                         tool_calls := some [{ id := "c1", name := "think",
                                               arguments := Json.null }],
                         tool_call_id := none } })
        [] : AgentRun Unit).calls = 2 ∧
     (AgentVertex.compute "agent"
        { system_prompt := "sys", stop_conditions := [], max_iterations := 2,
          allowed_tools := none } [] (fun _ => "")
        (fun _ _ _ => Except.ok
          { message := { role := Role.Assistant, content := "thinking",
                         tool_calls := some [{ id := "c1", name := "think",
                                               arguments := Json.null }],
                         tool_call_id := none } })
        [] : AgentRun Unit).result =
       Except.error (PregelError.VertexError "agent" "Max iterations reached")) ∧
    ((AgentVertex.compute "agent"
        { system_prompt := "sys", stop_conditions := [], max_iterations := 0,
          allowed_tools := none } [] (fun _ => "")
        (fun _ _ _ => Except.error "never called") [] : AgentRun Unit).calls =
        0 ∧
     (AgentVertex.compute "agent"
        { system_prompt := "sys", stop_conditions := [], max_iterations := 0,
          allowed_tools := none } [] (fun _ => "")
        (fun _ _ _ => Except.error "never called") [] : AgentRun Unit).result =
       Except.error (PregelError.VertexError "agent" "Max iterations reached")) :=
  ⟨(agent_compute_call_bound (U := Unit)).2.1 "agent" _ [] _ _ []
      (fun _ _ => ⟨by simp, rfl⟩),
   (agent_compute_call_bound (U := Unit)).2.2 "agent" _ [] _ _ [] rfl⟩

/-- Helper: the mailbox fold in `AgentVertex::compute` appends, in
mailbox order, one user message per `Data` entry, ignoring every other
variant. -/
theorem initialMessages_foldl (render : Json → String) :
    ∀ (mailbox : List WorkflowMessage) (acc : List Message),
      mailbox.foldl (fun acc m =>
        match m with
        | WorkflowMessage.Data _ value =>
          acc ++ [{ role := Role.User, content := render value,
                     tool_calls := none, tool_call_id := none }]
        | _ => acc) acc =
      acc ++ (mailbox.filterMap (fun m =>
          match m with
          | WorkflowMessage.Data _ v => some v
          | _ => none)).map (fun v =>
        { role := Role.User, content := render v, tool_calls := none,
          tool_call_id := none }) := by
  intro mailbox
  induction mailbox with
  | nil => intro acc; simp
  | cons m rest ih =>
    intro acc
    cases m with
    | Data k v => simp [ih]
    | Control t => simp [ih]

/-- C5: the message-history prologue of `AgentVertex::compute` consumes
only the `Data` variant of its mailbox — after the system prompt, one
user message per `Data` entry in mailbox order, rendered from its value;
other variants are ignored; and when the mailbox contributes nothing,
the single default user message "Begin processing." is added instead. -/
theorem agent_mailbox_data_only (sp : String) (render : Json → String)
    (mailbox : List WorkflowMessage) :
    initialMessages sp render mailbox =
      { role := Role.System, content := sp, tool_calls := none,
        tool_call_id := none } ::
      (if (mailbox.filterMap (fun m =>
            match m with
            | WorkflowMessage.Data _ v => some v
            | _ => none)).isEmpty then
        [{ role := Role.User, content := "Begin processing.",
           tool_calls := none, tool_call_id := none }]
      else (mailbox.filterMap (fun m =>
            match m with
            | WorkflowMessage.Data _ v => some v
            | _ => none)).map (fun v =>
          { role := Role.User, content := render v, tool_calls := none,
            tool_call_id := none })) := by
  simp only [initialMessages, initialMessages_foldl]
  cases h : mailbox.filterMap (fun m =>
      match m with
      | WorkflowMessage.Data _ v => some v
      | _ => none) with
  | nil => simp
  | cons v vs => simp

/-- Helper: appending one delivery touches exactly the target's
mailbox. -/
theorem mailboxOf_addDelivery
    (mbs : List (String × List WorkflowMessage)) (t : String)
    (m : WorkflowMessage) (v : String) :
    mailboxOf (addDelivery mbs t m) v =
      if t = v then mailboxOf mbs v ++ [m] else mailboxOf mbs v := by
  induction mbs with
  | nil =>
    simp only [addDelivery, mailboxOf]
    split <;> simp
  | cons kv rest ih =>
    obtain ⟨k, ms⟩ := kv
    by_cases hkt : k = t
    · subst hkt
      simp only [addDelivery, if_pos rfl, mailboxOf]
      by_cases hkv : k = v
      · simp [hkv]
      · simp [hkv]
    · simp only [addDelivery, if_neg hkt, mailboxOf]
      by_cases hkv : k = v
      · have htv : ¬ t = v := fun h => hkt (hkv.trans h.symm)
        simp [hkv, htv]
      · simp [hkv, ih]

/-- Helper: folding a delivery list into empty mailboxes yields, for
each vertex, exactly the messages of that list addressed to it, in
delivery order. -/
theorem mailboxOf_foldl_addDelivery (v : String) :
    ∀ (ds : List (String × WorkflowMessage))
      (acc : List (String × List WorkflowMessage)),
      mailboxOf (ds.foldl (fun a d => addDelivery a d.1 d.2) acc) v =
        mailboxOf acc v ++
          ds.filterMap (fun d => if d.1 = v then some d.2 else none) := by
  intro ds
  induction ds with
  | nil => intro acc; simp
  | cons d rest ih =>
    intro acc
    simp only [List.foldl_cons, List.filterMap_cons, ih,
      mailboxOf_addDelivery]
    by_cases hdv : d.1 = v
    · simp [hdv]
    · simp [hdv]

/-- C6 (spec-modelled): the barrier invariant.  For every vertex `v`,
the mailbox at the start of superstep `N + 1` consists exactly of the
messages routed from vertex outboxes during superstep `N` and addressed
to `v` — nothing delivered early, nothing delayed — and the mailbox at
superstep `0` consists exactly of the initial external inputs addressed
to `v`. -/
theorem pregel_barrier_invariant {S U : Type} (merge : S → U → S)
    (σ : List U → List U) (g : PregelGraph S U)
    (initial : List (String × WorkflowMessage)) (s0 : S) (n : Nat)
    (v : String) :
    mailboxOf (schedTrace merge σ g (initState initial s0) (n + 1)).mailboxes v =
      (deliveriesAt merge σ g (initState initial s0) n).filterMap
        (fun d => if d.1 = v then some d.2 else none) ∧
    mailboxOf (schedTrace merge σ g (initState initial s0) 0).mailboxes v =
      initial.filterMap (fun d => if d.1 = v then some d.2 else none) := by
  constructor
  · show mailboxOf (schedStep merge σ g
        (schedTrace merge σ g (initState initial s0) n)).next.mailboxes v = _
    simp only [schedStep, deliveriesAt]
    rw [mailboxOf_foldl_addDelivery]
    simp [mailboxOf]
  · show mailboxOf (initState initial s0).mailboxes v = _
    simp only [initState]
    rw [mailboxOf_foldl_addDelivery]
    simp [mailboxOf]

/-- Helper: folding a commutative merge over any two permutations of the
same update list produces the same state. -/
theorem foldl_merge_of_perm {S U : Type} (merge : S → U → S)
    (hcomm : ∀ (s : S) (u1 u2 : U),
      merge (merge s u1) u2 = merge (merge s u2) u1)
    {l1 l2 : List U} (h : l1.Perm l2) (s : S) :
    l1.foldl merge s = l2.foldl merge s :=
  h.foldl_eq' (fun x _ y _ z => hcomm z x y) s

/-- Helper: a superstep is independent of the order in which the
scheduler folds the collected updates, as long as that order is a
permutation of the collection and the merge is commutative. -/
theorem schedStep_sigma_eq {S U : Type} (merge : S → U → S)
    (σ1 σ2 : List U → List U)
    (hcomm : ∀ (s : S) (u1 u2 : U),
      merge (merge s u1) u2 = merge (merge s u2) u1)
    (h1 : ∀ l, (σ1 l).Perm l) (h2 : ∀ l, (σ2 l).Perm l)
    (g : PregelGraph S U) (st : SchedState S) :
    schedStep merge σ1 g st = schedStep merge σ2 g st := by
  have hs : (σ1 ((stepOutputs g st).map (fun o => o.update))).foldl merge st.state =
      (σ2 ((stepOutputs g st).map (fun o => o.update))).foldl merge st.state :=
    foldl_merge_of_perm merge hcomm ((h1 _).trans (h2 _).symm) st.state
  simp only [schedStep]
  rw [hs]

/-- Helper: the superstep loop is likewise independent of the update
fold order. -/
theorem runLoop_sigma_eq {S U : Type} (merge : S → U → S)
    (σ1 σ2 : List U → List U)
    (hcomm : ∀ (s : S) (u1 u2 : U),
      merge (merge s u1) u2 = merge (merge s u2) u1)
    (h1 : ∀ l, (σ1 l).Perm l) (h2 : ∀ l, (σ2 l).Perm l)
    (g : PregelGraph S U) :
    ∀ (fuel : Nat) (st : SchedState S)
      (log : List (String × String × WorkflowMessage)),
      runLoop merge σ1 g fuel st log = runLoop merge σ2 g fuel st log := by
  intro fuel
  induction fuel with
  | zero => intro st log; rfl
  | succ fuel ih =>
    intro st log
    by_cases h : st.active.isEmpty
    · simp [runLoop, h]
    · simp only [runLoop, h, Bool.false_eq_true, if_false]
      rw [schedStep_sigma_eq merge σ1 σ2 hcomm h1 h2 g st]
      exact ih _ _

/-- C7 (spec-modelled): determinism of the runtime.  For a fixed graph,
fixed initial messages, deterministic vertex computes and a commutative
(hence order-independent) state merge, two runs of `execute` — here,
two runs whose only freedom is the unspecified order in which collected
updates are folded — produce identical results: the same superstep
count, the same final state, the same outbound message log, and the
same convergence verdict. -/
theorem pregel_run_deterministic {S U : Type} (merge : S → U → S)
    (σ1 σ2 : List U → List U) (g : PregelGraph S U)
    (initial : List (String × WorkflowMessage)) (s0 : S)
    (maxSupersteps : Nat)
    (h1 : ∀ l, (σ1 l).Perm l) (h2 : ∀ l, (σ2 l).Perm l)
    (hcomm : ∀ (s : S) (u1 u2 : U),
      merge (merge s u1) u2 = merge (merge s u2) u1) :
    runPregel merge σ1 g initial s0 maxSupersteps =
      runPregel merge σ2 g initial s0 maxSupersteps :=
  runLoop_sigma_eq merge σ1 σ2 hcomm h1 h2 g maxSupersteps
    (initState initial s0) []

/-- A one-vertex graph over a counter state, used as a concrete run. -/
def haltingVertexA : PregelVertex Nat Nat :=
  { vid := "a", compute := fun _ _ _ => (1, [], VertexState.Halted) }

/-- The graph holding just `haltingVertexA`, with no edges. -/
def counterGraph : PregelGraph Nat Nat :=
  { vertices := [haltingVertexA], edges := [] }

/-- Witness for C7: the one-vertex counter graph, run once folding
updates in collection order and once in reverse order. -/
theorem pregel_run_deterministic_witness :
    runPregel (fun s u => s + u) (fun l => l) counterGraph
      [("a", WorkflowMessage.Data "k" Json.null)] (0 : Nat) 3 =
    runPregel (fun s u => s + u) (fun l => l.reverse) counterGraph
      [("a", WorkflowMessage.Data "k" Json.null)] (0 : Nat) 3 :=
  pregel_run_deterministic (fun s u => s + u) (fun l => l) (fun l => l.reverse)
    counterGraph [("a", WorkflowMessage.Data "k" Json.null)] 0 3
    (fun l => List.Perm.refl l) (fun l => l.reverse_perm)
    (fun s u1 u2 => by simp only []; omega)
